import Mathlib

/-!
Verification development for the personal-finance web client.

The embedding follows the frontend sources:
* `src/frontend/src/components/SplitModal.tsx` — the split editor
  (`useState` initialisers, `totalAssigned`, `remaining`,
  `handleAmountChange`, `handleSave`);
* `src/frontend/src/pages/TransactionsPage.tsx` — the page handlers
  (`handleDeleteRow`, `handleSaveSplitModal`);
* `src/frontend/src/api/transactions.js` — `splitTransaction`;
* `src/frontend/src/api.ts` — the generic `api` fetch wrapper.

Monetary amounts are JavaScript numbers in the source; they are modelled
as rationals (ℚ).  All amounts involved are cent-level decimals and the
one tolerance in the code is the fixed epsilon 0.01, so the rational
model is exact where the claims speak.
-/

namespace FinanceApp

/-- A person, as consumed by the split editor (`Person` in SplitModal.tsx). -/
structure Person where
  id : Int
  name : String
deriving DecidableEq

/-- The slice of a transaction handed to the split editor
(`Transaction` in SplitModal.tsx). -/
structure Transaction where
  amount_total : ℚ
  payer_person_id : Int
deriving DecidableEq

/-- One share entry (`ShareInput` in SplitModal.tsx).  The `source` field
is the literal string `"user_manual"` in every place the code builds one;
it is kept as a `String` field so that the payload carries it. -/
structure ShareInput where
  person_id : Int
  amount : ℚ
  source : String
deriving DecidableEq

/-- The payload `handleSave` passes to `onSave`
(`SplitPayload` in types.ts). -/
structure SplitPayload where
  payer_person_id : Int
  shares : List ShareInput
deriving DecidableEq

/-- The split editor's React state: the `shares` and `payer` `useState`
cells of `SplitModal`. -/
structure ModalState where
  shares : List ShareInput
  payer : Int
deriving DecidableEq

/-- `useState` initialiser for `shares`:
`people.map((p) => ({ person_id: p.id, amount: 0, source: "user_manual"}))`. -/
def initShares (people : List Person) : List ShareInput :=
  people.map fun p => { person_id := p.id, amount := 0, source := "user_manual" }

/-- The state `SplitModal` mounts with: zero shares for every person and
`payer` initialised to `transaction.payer_person_id`. -/
def initState (t : Transaction) (people : List Person) : ModalState :=
  { shares := initShares people, payer := t.payer_person_id }

/-- `shares.reduce((sum, s) => sum + s.amount, Number(0))`. -/
def totalAssigned (shares : List ShareInput) : ℚ :=
  shares.foldl (fun sum s => sum + s.amount) 0

/-- `remaining = Number(transaction.amount_total) - totalAssigned`. -/
def remaining (t : Transaction) (shares : List ShareInput) : ℚ :=
  t.amount_total - totalAssigned shares

/-- Value of a digit character. -/
def digitVal (c : Char) : Nat := c.toNat - 48

/-- Natural number denoted by a list of decimal digit characters. -/
def digitsVal (cs : List Char) : Nat :=
  cs.foldl (fun a c => 10 * a + digitVal c) 0

/-- Model of the JavaScript `parseFloat` builtin used by
`handleAmountChange`, restricted to plain decimal numerals: optional
leading spaces, an optional sign, then digits with an optional fractional
part, longest-prefix semantics.  `none` stands for `NaN` (no parsable
prefix).  Exponent notation and `Infinity`, which no claim exercises, are
outside the model. -/
def parseFloatQ (s : String) : Option ℚ :=
  let cs := s.toList.dropWhile (fun c => c = ' ')
  let neg := cs.headD 'x' = '-'
  let cs := if cs.headD 'x' = '-' ∨ cs.headD 'x' = '+' then cs.tail else cs
  let intDigits := cs.takeWhile Char.isDigit
  let rest := cs.dropWhile Char.isDigit
  let fracDigits :=
    if rest.headD 'x' = '.' then rest.tail.takeWhile Char.isDigit else []
  if intDigits.isEmpty ∧ fracDigits.isEmpty then none
  else
    let mag : ℚ :=
      (digitsVal intDigits : ℚ) + (digitsVal fracDigits : ℚ) / (10 : ℚ) ^ fracDigits.length
    some (if neg then -mag else mag)

/-- `parseFloat(amount) || 0`: `NaN` is falsy and becomes `0`; `0` stays
`0`; every other number is kept. -/
def parseOrZero (s : String) : ℚ :=
  (parseFloatQ s).getD 0

/-- `newShares[index] = { ...newShares[index], amount: v }` on a copied
array, for the in-range indices React supplies (the inputs are rendered
by `people.map`, so `index < shares.length` always holds on the page). -/
def setShareAmount : List ShareInput → Nat → ℚ → List ShareInput
  | [], _, _ => []
  | s :: rest, 0, v => { s with amount := v } :: rest
  | s :: rest, Nat.succ n, v => s :: setShareAmount rest n v

/-- `handleAmountChange(index, amount)`: copies the share array and
overwrites entry `index` with `parseFloat(amount) || 0`. -/
def handleAmountChange (st : ModalState) (index : Nat) (amount : String) : ModalState :=
  { st with shares := setShareAmount st.shares index (parseOrZero amount) }

/-- The observable calls `handleSave` can make: the `alert`, the `onSave`
callback, the `onClose` callback. -/
inductive Effect where
  | alert (msg : String)
  | onSave (payload : SplitPayload)
  | onClose
deriving DecidableEq

/-- `handleSave`: if `|remaining| > 0.01`, alert and return (state
untouched); otherwise call `onSave({ payer_person_id: payer, shares })`
and then `onClose()`.  The result lists the calls in order, paired with
the editor state afterwards (which `handleSave` never mutates). -/
def handleSave (t : Transaction) (st : ModalState) : List Effect × ModalState :=
  if |remaining t st.shares| > 1 / 100 then
    ([Effect.alert "The total assigned amount must match the transaction amount."], st)
  else
    ([Effect.onSave { payer_person_id := st.payer, shares := st.shares }, Effect.onClose], st)

/-- One user interaction with the mounted editor: typing into a share
input, or choosing a payer from the select. -/
inductive Edit where
  | amount (index : Nat) (input : String)
  | selectPayer (pid : Int)

/-- Apply one interaction: share inputs go through `handleAmountChange`,
the payer select through `setPayer(Number(e.target.value))`. -/
def applyEdit (st : ModalState) : Edit → ModalState
  | Edit.amount i a => handleAmountChange st i a
  | Edit.selectPayer p => { st with payer := p }

/-- The editor state after a sequence of interactions. -/
def applyEdits (st : ModalState) (es : List Edit) : ModalState :=
  es.foldl applyEdit st

/-- The editor state reached from mounting the modal on `t` with `people`
and performing the interactions `es`. -/
def modalAfter (t : Transaction) (people : List Person) (es : List Edit) : ModalState :=
  applyEdits (initState t people) es

/-- A displayed transaction row (`Transaction` in TransactionsPage.tsx). -/
structure TransactionRow where
  id : Int
  date : String
  description : Option String
  amount_total : ℚ
  account_id : Int
  category_id : Int
  payer_person_id : Int
deriving DecidableEq

/-- The transactions page's React state, restricted to the cells the
claims are about: the displayed list, whether the split modal is shown,
and the selected transaction. -/
structure PageState where
  transactions : List TransactionRow
  showSplitModal : Bool
  selectedTransaction : Option TransactionRow
deriving DecidableEq

/-- `handleDeleteRow`: if the user confirms, `await deleteTransaction`
(`deleteOk` is whether that request resolves), then refresh the list with
the freshly fetched `fetched`.  If the delete rejects, the refresh never
runs. -/
def handleDeleteRow (st : PageState) (confirmed deleteOk : Bool)
    (fetched : List TransactionRow) : PageState :=
  if confirmed then
    if deleteOk then { st with transactions := fetched } else st
  else st

/-- `handleSaveSplitModal`: returns at once with no request when no
transaction is selected; otherwise `await splitTransaction` (`requestOk`
is whether that request resolves) and only on success close the modal,
clear the selection and replace the list with the fetched one.  On
rejection the `await` throws and nothing after it runs. -/
def handleSaveSplitModal (st : PageState) (requestOk : Bool)
    (fetched : List TransactionRow) : PageState :=
  match st.selectedTransaction with
  | none => st
  | some _ =>
    if requestOk then
      { st with transactions := fetched, showSplitModal := false,
                selectedTransaction := none }
    else st

/-- The `onClose` prop TransactionsPage passes to SplitModal:
`setShowSplitModal(false); setSelectedTransaction(null)`. -/
def closeModal (st : PageState) : PageState :=
  { st with showSplitModal := false, selectedTransaction := none }

/-- The whole click on Save, composing `SplitModal.handleSave` with the
page's handlers under JavaScript event ordering.  If validation fails,
only the alert fires and the page is untouched.  Otherwise
`onSave(payload)` starts the async `handleSaveSplitModal` — which reads
`selectedTransaction` and initiates the split request synchronously, up
to its first `await` — and then `onClose()` runs synchronously, closing
the modal before the request settles.  When the request later resolves,
the continuation of `handleSaveSplitModal` clears the modal state again
and replaces the list with `fetched`; when it rejects, the continuation
never runs and the rejection is unhandled (no catch anywhere on the
path). -/
def saveClickFlow (t : Transaction) (ms : ModalState) (ps : PageState)
    (requestOk : Bool) (fetched : List TransactionRow) : PageState :=
  if |remaining t ms.shares| > 1 / 100 then
    ps
  else
    match ps.selectedTransaction with
    | none => closeModal ps
    | some _ =>
      if requestOk then
        { closeModal ps with transactions := fetched }
      else
        closeModal ps

/-- JSON-ish JavaScript values, enough to state what bodies the client
sends: numbers, strings, arrays, objects, and `undefined`. -/
inductive JSValue where
  | num (q : ℚ)
  | str (s : String)
  | arr (items : List JSValue)
  | obj (fields : List (String × JSValue))
  | undef

/-- The JavaScript kind of a value (what `typeof`/`Array.isArray` see). -/
def JSValue.kind : JSValue → String
  | JSValue.num _ => "number"
  | JSValue.str _ => "string"
  | JSValue.arr _ => "array"
  | JSValue.obj _ => "object"
  | JSValue.undef => "undefined"

/-- Property access `v[name]` on an object value. -/
def JSValue.field (v : JSValue) (name : String) : Option JSValue :=
  match v with
  | JSValue.obj fields => fields.lookup name
  | _ => none

/-- A POST request as assembled by the axios calls: target path and JSON
body.  (Axios omits `undefined`-valued fields when serialising; the model
keeps them explicit as `JSValue.undef`.) -/
structure PostRequest where
  path : String
  body : JSValue

/-- `splitTransaction(id, payerPersonId, shares)` from
api/transactions.js: POST to `/transactions/{id}/split` with body
`{ payer_person_id: payerPersonId, shares }`.  Its own comment documents
`shares` as an array of objects with `person_id` and `amount`. -/
def splitTransaction (id : Int) (payerPersonId : JSValue) (shares : JSValue) :
    PostRequest :=
  { path := "/transactions/" ++ toString id ++ "/split",
    body := JSValue.obj [("payer_person_id", payerPersonId), ("shares", shares)] }

/-- The `SplitPayload` object as a JavaScript value. -/
def payloadToJS (p : SplitPayload) : JSValue :=
  JSValue.obj
    [("payer_person_id", JSValue.num (p.payer_person_id : ℚ)),
     ("shares", JSValue.arr (p.shares.map fun s =>
        JSValue.obj
          [("person_id", JSValue.num (s.person_id : ℚ)),
           ("amount", JSValue.num s.amount),
           ("source", JSValue.str s.source)]))]

/-- The request `handleSaveSplitModal` actually issues:
`splitTransaction(selectedTransaction.id, payload)` — a two-argument
call of the three-parameter `splitTransaction`, so the payload object is
bound to the `payerPersonId` parameter and the `shares` parameter is
`undefined` (JavaScript missing-argument semantics). -/
def handleSaveSplitModalRequest (tx : TransactionRow) (payload : SplitPayload) :
    PostRequest :=
  splitTransaction tx.id (payloadToJS payload) JSValue.undef

/-- Modelled from the spec (§6, External Interfaces): the split
submission request as the spec describes it — body
`{ payer_person_id: number, shares: [{ person_id, amount, source: "user_manual" }] }`.
Stated only for comparison with `handleSaveSplitModalRequest`. -/
def specSplitRequest (txId : Int) (payload : SplitPayload) : PostRequest :=
  { path := "/transactions/" ++ toString txId ++ "/split",
    body := payloadToJS payload }

/-- An HTTP response as seen by the `api` fetch wrapper: `ok`, `status`,
the body text, and the value `res.json()` parses to. -/
structure HttpResponse where
  ok : Bool
  status : Nat
  bodyText : String
  jsonBody : JSValue

/-- The generic wrapper `api` from api.ts: on `!res.ok` throw
`Error(text || "HTTP <status>")` (an empty body text is falsy, so the
fallback message is used); otherwise return the parsed JSON body. -/
def api (res : HttpResponse) : Except String JSValue :=
  if !res.ok then
    Except.error
      (if res.bodyText = "" then "HTTP " ++ toString res.status else res.bodyText)
  else
    Except.ok res.jsonBody

/-! ### Helper lemmas about the share list -/

/-- `setShareAmount` never changes which person a row belongs to. -/
theorem setShareAmount_map_person (l : List ShareInput) (i : Nat) (v : ℚ) :
    (setShareAmount l i v).map (fun s => s.person_id) = l.map (fun s => s.person_id) := by
  induction l generalizing i with
  | nil => rfl
  | cons a rest ih =>
    cases i with
    | zero => rfl
    | succ n => simp [setShareAmount, ih]

/-- Every row of `setShareAmount l i v` is a row of `l`, possibly with its
amount overwritten by `v`. -/
theorem setShareAmount_mem {l : List ShareInput} {i : Nat} {v : ℚ} {s : ShareInput}
    (h : s ∈ setShareAmount l i v) :
    s ∈ l ∨ ∃ s' ∈ l, s = { s' with amount := v } := by
  induction l generalizing i with
  | nil => simp [setShareAmount] at h
  | cons a rest ih =>
    cases i with
    | zero =>
      rcases List.mem_cons.mp h with h1 | h1
      · exact Or.inr ⟨a, List.mem_cons_self a rest, h1⟩
      · exact Or.inl (List.mem_cons_of_mem a h1)
    | succ n =>
      rcases List.mem_cons.mp h with h1 | h1
      · exact Or.inl (h1 ▸ List.mem_cons_self a rest)
      · rcases ih h1 with h2 | ⟨s', hs', he⟩
        · exact Or.inl (List.mem_cons_of_mem a h2)
        · exact Or.inr ⟨s', List.mem_cons_of_mem a hs', he⟩

/-- Interactions never change which person each row belongs to. -/
theorem applyEdits_map_person (st : ModalState) (es : List Edit) :
    (applyEdits st es).shares.map (fun s => s.person_id) =
      st.shares.map (fun s => s.person_id) := by
  induction es generalizing st with
  | nil => rfl
  | cons e rest ih =>
    have hstep : applyEdits st (e :: rest) = applyEdits (applyEdit st e) rest := rfl
    rw [hstep, ih]
    cases e with
    | amount i a => simp [applyEdit, handleAmountChange, setShareAmount_map_person]
    | selectPayer p => rfl

/-- Interactions preserve the `source` tag on every row. -/
theorem applyEdits_source (st : ModalState) (es : List Edit)
    (hbase : ∀ s ∈ st.shares, s.source = "user_manual") :
    ∀ s ∈ (applyEdits st es).shares, s.source = "user_manual" := by
  induction es generalizing st with
  | nil => exact hbase
  | cons e rest ih =>
    have hstep : applyEdits st (e :: rest) = applyEdits (applyEdit st e) rest := rfl
    rw [hstep]
    refine ih _ ?_
    cases e with
    | amount i a =>
      intro s hs
      rcases setShareAmount_mem hs with h1 | ⟨s', hs', he⟩
      · exact hbase s h1
      · rw [he]; exact hbase s' hs'
    | selectPayer p => exact hbase

/-- Interactions whose typed amounts all parse to non-negative values
keep every stored amount non-negative. -/
theorem applyEdits_amount_nonneg (st : ModalState) (es : List Edit)
    (hbase : ∀ s ∈ st.shares, 0 ≤ s.amount)
    (hes : ∀ i a, Edit.amount i a ∈ es → 0 ≤ parseOrZero a) :
    ∀ s ∈ (applyEdits st es).shares, 0 ≤ s.amount := by
  induction es generalizing st with
  | nil => exact hbase
  | cons e rest ih =>
    have hstep : applyEdits st (e :: rest) = applyEdits (applyEdit st e) rest := rfl
    rw [hstep]
    refine ih _ ?_ (fun i a hm => hes i a (List.mem_cons_of_mem e hm))
    cases e with
    | amount i a =>
      intro s hs
      rcases setShareAmount_mem hs with h1 | ⟨s', hs', he⟩
      · exact hbase s h1
      · rw [he]; exact hes i a (List.mem_cons_self _ _)
    | selectPayer p => exact hbase

/-- The mount-time share rows all carry amount `0` and source
`"user_manual"`, one per person in order. -/
theorem initShares_spec (people : List Person) :
    (initShares people).map (fun s => s.person_id) = people.map (fun p => p.id) ∧
    ∀ s ∈ initShares people, s.amount = 0 ∧ s.source = "user_manual" := by
  constructor
  · simp [initShares]
  · intro s hs
    rcases List.mem_map.mp hs with ⟨p, _, hp⟩
    rw [← hp]
    exact ⟨rfl, rfl⟩

/-! ### Claims -/

/-- C1: for every transaction with `amount_total` T and every share list
whose sum S satisfies `|T − S| ≤ 0.01`, `handleSave` accepts: the
computed `remaining` equals T minus the sum of the shares, no rejection
message is raised, and `onSave` is invoked exactly once with that exact
share list unchanged (followed only by `onClose`), the state untouched. -/
theorem handleSave_accepts_within_epsilon (t : Transaction) (st : ModalState)
    (h : |t.amount_total - totalAssigned st.shares| ≤ 1 / 100) :
    remaining t st.shares = t.amount_total - totalAssigned st.shares ∧
    handleSave t st =
      ([Effect.onSave { payer_person_id := st.payer, shares := st.shares },
        Effect.onClose], st) := by
  refine ⟨rfl, ?_⟩
  rw [handleSave, if_neg]
  exact not_lt.mpr h

/-- Witness for C1 at total 10 with shares 4 and 6. -/
theorem handleSave_accepts_within_epsilon_witness :
    handleSave ⟨10, 1⟩ ⟨[⟨1, 4, "user_manual"⟩, ⟨2, 6, "user_manual"⟩], 2⟩ =
      ([Effect.onSave ⟨2, [⟨1, 4, "user_manual"⟩, ⟨2, 6, "user_manual"⟩]⟩,
        Effect.onClose],
       ⟨[⟨1, 4, "user_manual"⟩, ⟨2, 6, "user_manual"⟩], 2⟩) :=
  (handleSave_accepts_within_epsilon ⟨10, 1⟩
    ⟨[⟨1, 4, "user_manual"⟩, ⟨2, 6, "user_manual"⟩], 2⟩
    (by norm_num [totalAssigned])).2

/-- C2: whenever the share sum differs from `amount_total` by more than
0.01, `handleSave` blocks the submission: only the alert fires, `onSave`
and `onClose` are not called, the editor state is unchanged, and the
composed click flow leaves the page untouched (no request, no refresh). -/
theorem handleSave_rejects_outside_epsilon (t : Transaction) (st : ModalState)
    (ps : PageState) (requestOk : Bool) (fetched : List TransactionRow)
    (h : 1 / 100 < |t.amount_total - totalAssigned st.shares|) :
    handleSave t st =
      ([Effect.alert "The total assigned amount must match the transaction amount."], st) ∧
    (∀ p, Effect.onSave p ∉ (handleSave t st).1) ∧
    Effect.onClose ∉ (handleSave t st).1 ∧
    saveClickFlow t st ps requestOk fetched = ps := by
  have hg : 1 / 100 < |remaining t st.shares| := h
  have h1 : handleSave t st =
      ([Effect.alert "The total assigned amount must match the transaction amount."], st) := by
    rw [handleSave, if_pos hg]
  refine ⟨h1, ?_, ?_, ?_⟩
  · intro p
    rw [h1]
    intro hmem
    exact Effect.noConfusion (List.mem_singleton.mp hmem)
  · rw [h1]
    intro hmem
    exact Effect.noConfusion (List.mem_singleton.mp hmem)
  · rw [saveClickFlow, if_pos hg]

/-- Witness for C2 at total 9 with one share of 5. -/
theorem handleSave_rejects_outside_epsilon_witness :
    handleSave ⟨9, 1⟩ ⟨[⟨1, 5, "user_manual"⟩], 1⟩ =
      ([Effect.alert "The total assigned amount must match the transaction amount."],
       ⟨[⟨1, 5, "user_manual"⟩], 1⟩) :=
  (handleSave_rejects_outside_epsilon ⟨9, 1⟩ ⟨[⟨1, 5, "user_manual"⟩], 1⟩
    ⟨[], false, none⟩ true [] (by norm_num [totalAssigned])).1

/-- C5: at total 100.00 with shares 33.33, 33.33, 33.34 the computed
remaining is 0 and the save is accepted; at total 50.00 with shares 20.00
and 20.00 the computed remaining is 10 and the save is rejected with the
alert message. -/
theorem handleSave_concrete_examples :
    remaining ⟨100, 1⟩
        [⟨1, 3333/100, "user_manual"⟩, ⟨2, 3333/100, "user_manual"⟩,
         ⟨3, 3334/100, "user_manual"⟩] = 0 ∧
    handleSave ⟨100, 1⟩
        ⟨[⟨1, 3333/100, "user_manual"⟩, ⟨2, 3333/100, "user_manual"⟩,
          ⟨3, 3334/100, "user_manual"⟩], 1⟩ =
      ([Effect.onSave ⟨1, [⟨1, 3333/100, "user_manual"⟩, ⟨2, 3333/100, "user_manual"⟩,
          ⟨3, 3334/100, "user_manual"⟩]⟩,
        Effect.onClose],
       ⟨[⟨1, 3333/100, "user_manual"⟩, ⟨2, 3333/100, "user_manual"⟩,
         ⟨3, 3334/100, "user_manual"⟩], 1⟩) ∧
    remaining ⟨50, 2⟩ [⟨1, 20, "user_manual"⟩, ⟨2, 20, "user_manual"⟩] = 10 ∧
    handleSave ⟨50, 2⟩ ⟨[⟨1, 20, "user_manual"⟩, ⟨2, 20, "user_manual"⟩], 2⟩ =
      ([Effect.alert "The total assigned amount must match the transaction amount."],
       ⟨[⟨1, 20, "user_manual"⟩, ⟨2, 20, "user_manual"⟩], 2⟩) := by
  refine ⟨?_, ?_, ?_, ?_⟩ <;> norm_num [handleSave, remaining, totalAssigned]

/-- C7: mounting the split editor on an unmodified transaction is a pure
function of the transaction and people list — the payer starts as the
transaction's `payer_person_id` and the share rows carry amount 0, one
row per person in order. -/
theorem initState_default_allocation (t : Transaction) (people : List Person) :
    (initState t people).payer = t.payer_person_id ∧
    (initState t people).shares.map (fun s => s.person_id) =
      people.map (fun p => p.id) ∧
    ∀ s ∈ (initState t people).shares, s.amount = 0 :=
  ⟨rfl, (initShares_spec people).1, fun s hs => ((initShares_spec people).2 s hs).1⟩

/-- Witness for C7 at a two-person list. -/
theorem initState_default_allocation_witness :
    (initState ⟨25, 3⟩ [⟨3, "Ana"⟩, ⟨4, "Bo"⟩]).payer = 3 ∧
    ({ person_id := 3, amount := 0, source := "user_manual" } : ShareInput).amount = 0 :=
  ⟨(initState_default_allocation ⟨25, 3⟩ [⟨3, "Ana"⟩, ⟨4, "Bo"⟩]).1,
   (initState_default_allocation ⟨25, 3⟩ [⟨3, "Ana"⟩, ⟨4, "Bo"⟩]).2.2
     { person_id := 3, amount := 0, source := "user_manual" }
     (by simp [initState, initShares])⟩

/-- C10: the `api` wrapper succeeds with the parsed JSON body exactly
when the response is ok, and otherwise throws with the response body
text, or `"HTTP <status>"` when that text is empty — a non-ok response is
never observed as a success. -/
theorem api_ok_iff_response_ok (res : HttpResponse) :
    ((∃ v, api res = Except.ok v) ↔ res.ok = true) ∧
    (res.ok = true → api res = Except.ok res.jsonBody) ∧
    (res.ok = false →
      api res = Except.error
        (if res.bodyText = "" then "HTTP " ++ toString res.status else res.bodyText)) := by
  cases hok : res.ok with
  | true =>
    refine ⟨⟨fun _ => rfl, fun _ => ⟨res.jsonBody, by simp [api, hok]⟩⟩,
      fun _ => by simp [api, hok], fun hf => Bool.noConfusion hf⟩
  | false =>
    refine ⟨⟨fun ⟨v, hv⟩ => ?_, fun hf => Bool.noConfusion hf⟩,
      fun hf => Bool.noConfusion hf, fun _ => by simp [api, hok]⟩
    simp [api, hok] at hv

/-- Witness for C10 at a 404 with empty body. -/
theorem api_ok_iff_response_ok_witness :
    api ⟨false, 404, "", JSValue.undef⟩ = Except.error "HTTP 404" :=
  (api_ok_iff_response_ok ⟨false, 404, "", JSValue.undef⟩).2.2 rfl

/-- C3 (code evaluated at the failing input): `handleSaveSplitModal`
calls the three-parameter `splitTransaction` with only two arguments, so
for transaction 7 and the payload
`{ payer_person_id: 2, shares: [{1, 40}, {2, 60}] }` the request body
binds the whole payload object to `payer_person_id` and `undefined` to
`shares` — not the documented `{ payer_person_id: number, shares: array }`
shape: the `payer_person_id` field holds an object where the spec shape
holds a number, and the `shares` field holds `undefined` where the spec
shape holds an array. -/
theorem splitRequest_nested_payload_bug :
    (handleSaveSplitModalRequest ⟨7, "2025-01-01", none, 100, 1, 2, 2⟩
        ⟨2, [⟨1, 40, "user_manual"⟩, ⟨2, 60, "user_manual"⟩]⟩).path =
      "/transactions/7/split" ∧
    (handleSaveSplitModalRequest ⟨7, "2025-01-01", none, 100, 1, 2, 2⟩
        ⟨2, [⟨1, 40, "user_manual"⟩, ⟨2, 60, "user_manual"⟩]⟩).body.field
        "payer_person_id" =
      some (payloadToJS ⟨2, [⟨1, 40, "user_manual"⟩, ⟨2, 60, "user_manual"⟩]⟩) ∧
    ((handleSaveSplitModalRequest ⟨7, "2025-01-01", none, 100, 1, 2, 2⟩
        ⟨2, [⟨1, 40, "user_manual"⟩, ⟨2, 60, "user_manual"⟩]⟩).body.field
        "payer_person_id").map JSValue.kind = some "object" ∧
    ((handleSaveSplitModalRequest ⟨7, "2025-01-01", none, 100, 1, 2, 2⟩
        ⟨2, [⟨1, 40, "user_manual"⟩, ⟨2, 60, "user_manual"⟩]⟩).body.field
        "shares").map JSValue.kind = some "undefined" ∧
    ((specSplitRequest 7
        ⟨2, [⟨1, 40, "user_manual"⟩, ⟨2, 60, "user_manual"⟩]⟩).body.field
        "payer_person_id").map JSValue.kind = some "number" ∧
    ((specSplitRequest 7
        ⟨2, [⟨1, 40, "user_manual"⟩, ⟨2, 60, "user_manual"⟩]⟩).body.field
        "shares").map JSValue.kind = some "array" := by
  refine ⟨rfl, rfl, rfl, rfl, rfl, rfl⟩

/-- C4 counterexample: with a valid split entered (total 30 fully
assigned), the modal open and a transaction selected, a failing backend
request still ends with the split editor closed — the claim that the
editor remains open on failure is false. -/
theorem saveClickFlow_closes_on_failure_cex :
    (⟨[⟨11, "2025-02-02", none, 30, 1, 1, 5⟩], true,
      some ⟨11, "2025-02-02", none, 30, 1, 1, 5⟩⟩ : PageState).showSplitModal = true ∧
    (saveClickFlow ⟨30, 5⟩ ⟨[⟨5, 30, "user_manual"⟩], 5⟩
      ⟨[⟨11, "2025-02-02", none, 30, 1, 1, 5⟩], true,
       some ⟨11, "2025-02-02", none, 30, 1, 1, 5⟩⟩ false []).showSplitModal = false := by
  refine ⟨rfl, ?_⟩
  norm_num [saveClickFlow, remaining, totalAssigned, closeModal]

/-- C4 as amended: once local validation passes, a failing backend split
request leaves the displayed transaction list untouched (no partial
application, refresh only on success), but the editor does not remain
open — `onClose` runs unconditionally before the request settles, so the
modal is closed on failure and on success alike. -/
theorem saveClickFlow_failure_semantics (t : Transaction) (ms : ModalState)
    (ps : PageState) (tx : TransactionRow) (fetched : List TransactionRow)
    (hsel : ps.selectedTransaction = some tx)
    (h : |t.amount_total - totalAssigned ms.shares| ≤ 1 / 100) :
    (saveClickFlow t ms ps false fetched).transactions = ps.transactions ∧
    (saveClickFlow t ms ps false fetched).showSplitModal = false ∧
    (saveClickFlow t ms ps true fetched).transactions = fetched ∧
    (saveClickFlow t ms ps true fetched).showSplitModal = false := by
  have hng : ¬ (1 / 100 < |remaining t ms.shares|) := not_lt.mpr h
  have h1 : saveClickFlow t ms ps false fetched = closeModal ps := by
    rw [saveClickFlow, if_neg hng, hsel]
    rfl
  have h2 : saveClickFlow t ms ps true fetched =
      { closeModal ps with transactions := fetched } := by
    rw [saveClickFlow, if_neg hng, hsel]
    rfl
  exact ⟨by rw [h1]; rfl, by rw [h1]; rfl, by rw [h2], by rw [h2]; rfl⟩

/-- Witness for the amended C4 at total 12 fully assigned. -/
theorem saveClickFlow_failure_semantics_witness :
    (saveClickFlow ⟨12, 1⟩ ⟨[⟨1, 12, "user_manual"⟩], 1⟩
      ⟨[⟨3, "2025-03-03", none, 12, 1, 1, 1⟩], true,
       some ⟨3, "2025-03-03", none, 12, 1, 1, 1⟩⟩ false []).transactions =
      [⟨3, "2025-03-03", none, 12, 1, 1, 1⟩] :=
  (saveClickFlow_failure_semantics ⟨12, 1⟩ ⟨[⟨1, 12, "user_manual"⟩], 1⟩
    ⟨[⟨3, "2025-03-03", none, 12, 1, 1, 1⟩], true,
     some ⟨3, "2025-03-03", none, 12, 1, 1, 1⟩⟩
    ⟨3, "2025-03-03", none, 12, 1, 1, 1⟩ [] rfl (by norm_num [totalAssigned])).1

/-- C6: from any editor state reachable by user interactions from
mounting, an accepted save emits `onSave` once with `payer_person_id`
equal to the currently selected payer and exactly one share row per
person in the people list, in order — each row carrying that person's id,
its current amount (the rows are the state's rows themselves, zero-amount
rows included), and source `"user_manual"`. -/
theorem accepted_payload_one_share_per_person (t : Transaction)
    (people : List Person) (es : List Edit)
    (h : |remaining t (modalAfter t people es).shares| ≤ 1 / 100) :
    handleSave t (modalAfter t people es) =
      ([Effect.onSave ⟨(modalAfter t people es).payer,
          (modalAfter t people es).shares⟩, Effect.onClose],
       modalAfter t people es) ∧
    (modalAfter t people es).shares.map (fun s => s.person_id) =
      people.map (fun p => p.id) ∧
    ∀ s ∈ (modalAfter t people es).shares, s.source = "user_manual" := by
  refine ⟨?_, ?_, ?_⟩
  · rw [handleSave, if_neg (not_lt.mpr h)]
  · rw [modalAfter, applyEdits_map_person]
    exact (initShares_spec people).1
  · rw [modalAfter]
    exact applyEdits_source _ _ (fun s hs => ((initShares_spec people).2 s hs).2)

/-- Witness for C6 on a freshly mounted editor over two people with
total 0 (both share rows still zero-amount). -/
theorem accepted_payload_one_share_per_person_witness :
    (modalAfter ⟨0, 9⟩ [⟨9, "P"⟩, ⟨10, "Q"⟩] []).shares.map
      (fun s => s.person_id) = [9, 10] :=
  (accepted_payload_one_share_per_person ⟨0, 9⟩ [⟨9, "P"⟩, ⟨10, "Q"⟩] []
    (by norm_num [remaining, modalAfter, applyEdits, initState, initShares,
      totalAssigned])).2.1

/-- C8 counterexample: typing `-5` into a share input stores the amount
−5, so the claim that every stored amount stays non-negative for every
input string is false. -/
theorem handleAmountChange_negative_cex :
    (handleAmountChange ⟨[⟨1, 0, "user_manual"⟩], 1⟩ 0 "-5").shares.map
      (fun s => s.amount) = [-5] ∧
    ¬ ∀ s ∈ (handleAmountChange ⟨[⟨1, 0, "user_manual"⟩], 1⟩ 0 "-5").shares,
        0 ≤ s.amount := by
  have hp : parseOrZero "-5" = -5 := by
    simp +decide [parseOrZero, parseFloatQ, digitsVal, digitVal]
  constructor
  · simp [handleAmountChange, setShareAmount, hp]
  · intro hall
    have hmem : ({ person_id := 1, amount := -5, source := "user_manual" } : ShareInput) ∈
        (handleAmountChange ⟨[⟨1, 0, "user_manual"⟩], 1⟩ 0 "-5").shares := by
      simp [handleAmountChange, setShareAmount, hp]
    have := hall _ hmem
    norm_num at this

/-- C8 as amended: the mount-time amounts are all zero, and any sequence
of edits whose typed inputs each parse to a non-negative value (inputs
that fail to parse count as zero) keeps every stored amount non-negative;
an input parsing to a negative number is stored as entered. -/
theorem amounts_nonneg_of_nonneg_inputs (t : Transaction) (people : List Person)
    (es : List Edit)
    (hes : ∀ i a, Edit.amount i a ∈ es → 0 ≤ parseOrZero a) :
    ∀ s ∈ (modalAfter t people es).shares, 0 ≤ s.amount := by
  rw [modalAfter]
  exact applyEdits_amount_nonneg _ _
    (fun s hs => le_of_eq (((initShares_spec people).2 s hs).1).symm) hes

/-- Witness for the amended C8: after typing `3`, the stored amount 3 is
non-negative. -/
theorem amounts_nonneg_of_nonneg_inputs_witness :
    0 ≤ ({ person_id := 1, amount := 3, source := "user_manual" } : ShareInput).amount :=
  amounts_nonneg_of_nonneg_inputs ⟨5, 1⟩ [⟨1, "A"⟩] [Edit.amount 0 "3"]
    (by
      intro i a hm
      have hq := List.mem_singleton.mp hm
      injection hq with h1 h2
      subst h2
      simp +decide [parseOrZero, parseFloatQ, digitsVal, digitVal])
    { person_id := 1, amount := 3, source := "user_manual" }
    (by simp +decide [modalAfter, applyEdits, applyEdit, initState, initShares,
      handleAmountChange, setShareAmount, parseOrZero, parseFloatQ, digitsVal,
      digitVal])

/-- C9: after a confirmed delete whose request succeeds, and after a
split submission whose request succeeds, the displayed list is exactly
the freshly fetched list, whatever was displayed before — a full
replacement, never a patch of the previous list. -/
theorem mutation_refresh_replaces_list (st : PageState) (tx : TransactionRow)
    (fetched : List TransactionRow)
    (hsel : st.selectedTransaction = some tx) :
    (handleDeleteRow st true true fetched).transactions = fetched ∧
    (handleSaveSplitModal st true fetched).transactions = fetched := by
  constructor
  · rfl
  · simp [handleSaveSplitModal, hsel]

/-- Witness for C9 with a one-row list replaced by an empty fetch. -/
theorem mutation_refresh_replaces_list_witness :
    (handleSaveSplitModal ⟨[⟨1, "2025-04-04", none, 5, 1, 1, 1⟩], false,
      some ⟨1, "2025-04-04", none, 5, 1, 1, 1⟩⟩ true []).transactions = [] :=
  (mutation_refresh_replaces_list _ _ _ rfl).2

end FinanceApp
